import Mathlib

/-!
# Verification of the message transport layer of go-libp2p-kad-dht (dht_net.go)

Shallow embedding of the client path (`sendRequest`, `sendMessage`), the
server path (`handleNewStream` / `handleNewMessage`) and the peer-bookkeeping
helper (`updateFromMessage`) of `dht_net.go`.

External collaborators (stream pool, pooled session, peer store, handler
registry, transport reads and writes) are modelled as environments: each call
site's possible outcomes are parameters, and the functions under verification
are translated from the Go source as functions from those outcomes to the
returned values together with a trace of observable side effects (pool puts,
stream resets, routing-table updates, latency records, response writes).
-/

/-- Errors are opaque values; the Go code only compares them to nil (and, for
logging only, inspects the "stream reset" text, which has no control-flow
effect beyond logging). -/
abbrev Err := String

/-- Opaque comparable identifier of a remote peer. -/
abbrev PeerId := Nat

/-- Opaque protocol identifier, as returned by SupportsProtocols. -/
abbrev ProtoId := String

/-- A message is treated by this layer as an opaque envelope with a type tag
and an accounting size. -/
structure Message where
  typeTag : Nat
  size : Nat
deriving DecidableEq

/-- Observable side effects performed by the functions of dht_net.go on their
collaborators, in program order. -/
inductive Effect where
  /-- recordOutboundMessage: metrics accounting for an outgoing message. -/
  | recordOutbound (m : Message)
  /-- dht.streamPool.put(ps, p): the session is returned to the pool. -/
  | poolPut (p : PeerId)
  /-- ps.reset(): the session's underlying stream is destroyed. -/
  | sessionReset
  /-- dht.updateFromMessage(ctx, p, m) was invoked (peer bookkeeping). -/
  | bookkeep (p : PeerId) (m : Message)
  /-- dht.Update(ctx, p): routing-table freshness update, performed inside
  updateFromMessage when the protocol-support gate passes. -/
  | rtUpdate (p : PeerId)
  /-- dht.peerstore.RecordLatency(p, rtt). -/
  | recordLatency (p : PeerId)
  /-- the registered handler for an inbound request was invoked. -/
  | handled (m : Message)
  /-- w.WriteMsg(resp): a response frame was written. -/
  | wroteResp (m : Message)
  /-- w.Flush() succeeded: the written response frame was flushed. -/
  | flushed
deriving DecidableEq

/-- dht.updateFromMessage: queries the peer store for protocol support and
updates routing-table freshness only when the query returned no error and a
non-empty list of matched protocols; always returns nil.
`sp` models `dht.peerstore.SupportsProtocols(p, dht.protocolStrs()...)`,
yielding the matched protocols and the error. -/
def updateFromMessage (sp : PeerId → List ProtoId × Option Err) (p : PeerId)
    (m : Message) : Option Err × List Effect :=
  (none, Effect.bookkeep p m ::
    (if (sp p).2 = none ∧ (sp p).1 ≠ [] then [Effect.rtUpdate p] else []))

/-- Outcome of the `select` in sendRequest racing the PendingReply channel
against context cancellation. -/
inductive RaceOutcome where
  /-- the channel delivered a reply before the context was done. -/
  | replyFirst (reply : Message)
  /-- the channel was closed without delivering a value, before the context
  was done (the session died). -/
  | chanClosed
  /-- the context was done first; `late` is what the channel eventually
  yields to the detached continuation (a late reply, or none when the channel
  is closed without a value). -/
  | ctxDone (late : Option Message)
deriving DecidableEq

/-- Environment of one sendRequest call: outcomes of every external step. -/
structure SendEnv where
  /-- dht.getStream(ctx, p): a session, or the acquisition error. -/
  getStream : Except Err Unit
  /-- error returned by ps.request(ctx, req); none on success. -/
  requestErr : Option Err
  /-- outcome of the select on the PendingReply channel vs ctx.Done(). -/
  race : RaceOutcome
  /-- ps.err(): the session's terminal error, read when the channel closed. -/
  sessionErr : Err
  /-- ctx.Err(): the context's cancellation error. -/
  ctxErr : Err
  /-- dht.peerstore.SupportsProtocols, used by updateFromMessage. -/
  supports : PeerId → List ProtoId × Option Err

/-- Result of a sendRequest call: the returned (reply, error) pair, the side
effects performed before returning, and the side effects of the detached
continuation spawned when cancellation won the race. -/
structure SendResult where
  reply : Option Message
  error : Option Err
  effects : List Effect
  deferred : List Effect
deriving DecidableEq

/-- The `onReply` closure of sendRequest: return the session to the pool,
update peer bookkeeping from the reply, record round-trip latency. -/
def onReply (sp : PeerId → List ProtoId × Option Err) (p : PeerId)
    (reply : Message) : List Effect :=
  Effect.poolPut p :: (updateFromMessage sp p reply).2 ++ [Effect.recordLatency p]

/-- dht.sendRequest(ctx, p, req), translated line by line from the source:
record the outbound message, acquire a session, invoke request, then race the
PendingReply channel against cancellation; on a timely reply run onReply and
return the reply; on channel close return ps.err(); on cancellation return
ctx.Err() immediately and leave onReply to a detached continuation. -/
def sendRequest (env : SendEnv) (p : PeerId) (req : Message) : SendResult :=
  match env.getStream with
  | Except.error e => ⟨none, some e, [Effect.recordOutbound req], []⟩
  | Except.ok _ =>
    match env.requestErr with
    | some e =>
        ⟨none, some e, [Effect.recordOutbound req, Effect.sessionReset], []⟩
    | none =>
      match env.race with
      | RaceOutcome.replyFirst r =>
          ⟨some r, none, Effect.recordOutbound req :: onReply env.supports p r, []⟩
      | RaceOutcome.chanClosed =>
          ⟨none, some env.sessionErr, [Effect.recordOutbound req], []⟩
      | RaceOutcome.ctxDone late =>
          ⟨none, some env.ctxErr, [Effect.recordOutbound req],
            match late with
            | some r => onReply env.supports p r
            | none => []⟩

/-- Modelled from the spec: the pooled session type (`stream`) is not part of
this source file; only its call sites appear here. Per the spec's
MessageSession state machine, the PendingReply channel is closed without
delivering a value only when the session has transitioned to Destroyed: its
internal read continuation has reset the underlying stream and recorded the
terminal error that `err()` reports. These are the session's own effects,
performed outside the sendRequest call frame. -/
def sessionInternalEffects (env : SendEnv) : List Effect :=
  match env.race with
  | RaceOutcome.chanClosed => [Effect.sessionReset]
  | _ => []

/-- Environment of one sendMessage call. -/
structure SendMsgEnv where
  /-- dht.getStream(ctx, p): a session, or the acquisition error. -/
  getStream : Except Err Unit
  /-- error returned by ps.send(pmes); none on success. -/
  sendErr : Option Err

/-- dht.sendMessage(ctx, p, pmes): fire-and-forget. Acquire a session, send;
on success put the session back in the pool, on error reset it; return the
send error. No reply is awaited. -/
def sendMessage (env : SendMsgEnv) (p : PeerId) (pmes : Message) :
    Option Err × List Effect :=
  match env.getStream with
  | Except.error e => (some e, [Effect.recordOutbound pmes])
  | Except.ok _ =>
    match env.sendErr with
    | none => (none, [Effect.recordOutbound pmes, Effect.poolPut p])
    | some e => (some e, [Effect.recordOutbound pmes, Effect.sessionReset])

/-- Outcome of one r.ReadMsg on the inbound stream: end-of-input with no
partial frame (io.EOF), any other read error, or a decoded request. -/
inductive ReadResult where
  | eof
  | readErr (e : Err)
  | msg (m : Message)
deriving DecidableEq

/-- Environment of the inbound dispatcher: the handler registry, the peer
store's protocol-support query, and the outcome of writing+flushing each
response frame. -/
structure DispatchEnv where
  /-- dht.handlerForMsgType: handler registered for a message type tag, if
  any; a handler maps (peer, request) to (response-or-nil, error). -/
  handlerFor : Nat → Option (PeerId → Message → Option Message × Option Err)
  /-- dht.peerstore.SupportsProtocols, used by updateFromMessage. -/
  supports : PeerId → List ProtoId × Option Err
  /-- combined error of w.WriteMsg(resp) followed by w.Flush(); none when
  both succeed. -/
  writeErr : Message → Option Err

/-- dht.handleNewMessage: the server-side dispatcher loop, translated from
the source. The inbound stream is modelled by the list of successive read
outcomes. Returns true on orderly completion of writes (io.EOF on a read),
false on any other read error, unknown message type, handler error, or
write/flush error, together with the trace of side effects. -/
def handleNewMessage (env : DispatchEnv) (p : PeerId) :
    List ReadResult → Bool × List Effect
  | [] => (false, [])
  | ReadResult.eof :: _ => (true, [])
  | ReadResult.readErr _ :: _ => (false, [])
  | ReadResult.msg req :: rest =>
    match env.handlerFor req.typeTag with
    | none => (false, [])
    | some h =>
      match h p req with
      | (_, some _) => (false, [Effect.handled req])
      | (none, none) =>
        let out := handleNewMessage env p rest
        (out.1, Effect.handled req :: (updateFromMessage env.supports p req).2 ++ out.2)
      | (some resp, none) =>
        match env.writeErr resp with
        | some _ =>
            (false, Effect.handled req :: (updateFromMessage env.supports p req).2 ++
              [Effect.wroteResp resp])
        | none =>
          let out := handleNewMessage env p rest
          (out.1, Effect.handled req :: (updateFromMessage env.supports p req).2 ++
            (Effect.wroteResp resp :: Effect.flushed :: out.2))

/-- Terminal operations handleNewStream performs on the inbound stream. -/
inductive StreamOp where
  /-- s.Close(): graceful half-close of the write side. -/
  | close
  /-- s.Reset(): hard reset (the deferred Reset always runs; after a graceful
  Close it is a no-op on the already-closed stream). -/
  | reset
deriving DecidableEq

/-- dht.handleNewStream: runs the dispatcher loop; on orderly completion it
closes the stream for writes, and the deferred Reset always runs last. -/
def handleNewStream (env : DispatchEnv) (p : PeerId) (trace : List ReadResult) :
    List StreamOp × List Effect :=
  let out := handleNewMessage env p trace
  ((if out.1 then [StreamOp.close] else []) ++ [StreamOp.reset], out.2)

/-- var dhtReadMessageTimeout = time.Minute, in nanoseconds. -/
def dhtReadMessageTimeout : Nat := 60 * 1000000000

/-- var ErrReadTimeout = fmt.Errorf("timed out reading response"). -/
def ErrReadTimeout : Err := "timed out reading response"

/-- Modelled from the spec: the code applying dhtReadMessageTimeout to reads
lives in the session type, which is not part of this source file (dht_net.go
only declares the budget and the error). Per the spec's timeout policy, a
read on an idle inbound stream on which no next request arrives within the
fixed read-timeout budget fails with the read-timeout error instead of
yielding its next outcome. -/
def idleRead (waitedNanos : Nat) (next : ReadResult) : ReadResult :=
  if dhtReadMessageTimeout < waitedNanos then ReadResult.readErr ErrReadTimeout
  else next

/-- Recognizer for pool-put effects. -/
def isPoolPut : Effect → Bool
  | Effect.poolPut _ => true
  | _ => false

/-- Number of times the session is returned to the pool in a trace. -/
def poolPuts (l : List Effect) : Nat := l.countP isPoolPut

/-- The response frame carried by a write effect, if any. -/
def respOf : Effect → Option Message
  | Effect.wroteResp m => some m
  | _ => none

/-- The response frames written in a trace, in order. -/
def writesOf (l : List Effect) : List Message := l.filterMap respOf

/-- Recognizer for flush effects. -/
def isFlush : Effect → Bool
  | Effect.flushed => true
  | _ => false

/-- Number of successful response flushes in a trace. -/
def flushes (l : List Effect) : Nat := l.countP isFlush

/-! ## Helper lemmas about effect traces -/

theorem poolPuts_append (l1 l2 : List Effect) :
    poolPuts (l1 ++ l2) = poolPuts l1 + poolPuts l2 := by
  simp [poolPuts, List.countP_append]

theorem writesOf_append (l1 l2 : List Effect) :
    writesOf (l1 ++ l2) = writesOf l1 ++ writesOf l2 := by
  simp [writesOf, List.filterMap_append]

theorem flushes_append (l1 l2 : List Effect) :
    flushes (l1 ++ l2) = flushes l1 + flushes l2 := by
  simp [flushes, List.countP_append]

theorem updateFromMessage_poolPuts (sp : PeerId → List ProtoId × Option Err)
    (p : PeerId) (m : Message) : poolPuts (updateFromMessage sp p m).2 = 0 := by
  unfold updateFromMessage
  by_cases h : (sp p).2 = none ∧ (sp p).1 ≠ [] <;>
    simp [h, poolPuts, isPoolPut, List.countP_cons]

theorem updateFromMessage_writesOf (sp : PeerId → List ProtoId × Option Err)
    (p : PeerId) (m : Message) : writesOf (updateFromMessage sp p m).2 = [] := by
  unfold updateFromMessage
  by_cases h : (sp p).2 = none ∧ (sp p).1 ≠ [] <;>
    simp [h, writesOf, respOf, List.filterMap_cons]

theorem updateFromMessage_flushes (sp : PeerId → List ProtoId × Option Err)
    (p : PeerId) (m : Message) : flushes (updateFromMessage sp p m).2 = 0 := by
  unfold updateFromMessage
  by_cases h : (sp p).2 = none ∧ (sp p).1 ≠ [] <;>
    simp [h, flushes, isFlush, List.countP_cons]

theorem updateFromMessage_no_reset (sp : PeerId → List ProtoId × Option Err)
    (p : PeerId) (m : Message) :
    Effect.sessionReset ∉ (updateFromMessage sp p m).2 := by
  unfold updateFromMessage
  by_cases h : (sp p).2 = none ∧ (sp p).1 ≠ [] <;> simp [h]

theorem updateFromMessage_bookkeep (sp : PeerId → List ProtoId × Option Err)
    (p : PeerId) (m : Message) :
    Effect.bookkeep p m ∈ (updateFromMessage sp p m).2 := by
  unfold updateFromMessage
  simp

theorem onReply_poolPuts (sp : PeerId → List ProtoId × Option Err) (p : PeerId)
    (r : Message) : poolPuts (onReply sp p r) = 1 := by
  have h := updateFromMessage_poolPuts sp p r
  rw [poolPuts] at h
  show List.countP isPoolPut
    (Effect.poolPut p :: (updateFromMessage sp p r).2 ++ [Effect.recordLatency p]) = 1
  simp [List.countP_append, List.countP_cons, h, isPoolPut]

theorem onReply_no_reset (sp : PeerId → List ProtoId × Option Err) (p : PeerId)
    (r : Message) : Effect.sessionReset ∉ onReply sp p r := by
  have h := updateFromMessage_no_reset sp p r
  simp [onReply]
  exact h

theorem onReply_bookkeep (sp : PeerId → List ProtoId × Option Err) (p : PeerId)
    (r : Message) : Effect.bookkeep p r ∈ onReply sp p r := by
  have h := updateFromMessage_bookkeep sp p r
  simp [onReply]
  exact h

theorem onReply_recordLatency (sp : PeerId → List ProtoId × Option Err)
    (p : PeerId) (r : Message) : Effect.recordLatency p ∈ onReply sp p r := by
  simp [onReply]

/-! ## Client path: sendRequest and sendMessage -/

/-- C1: for every sendRequest call that completes successfully (a reply is
received on the PendingReply channel before the context is cancelled), the
session is returned to the pool exactly once, peer bookkeeping is updated
from the reply, round-trip latency is recorded via the peer store, and the
reply is returned to the caller with a nil error. -/
theorem sendRequest_success_pool_and_bookkeeping (env : SendEnv) (p : PeerId)
    (req r : Message) (hs : env.getStream = Except.ok ())
    (hq : env.requestErr = none) (hr : env.race = RaceOutcome.replyFirst r) :
    (sendRequest env p req).reply = some r ∧
    (sendRequest env p req).error = none ∧
    poolPuts ((sendRequest env p req).effects ++ (sendRequest env p req).deferred) = 1 ∧
    Effect.bookkeep p r ∈ (sendRequest env p req).effects ∧
    Effect.recordLatency p ∈ (sendRequest env p req).effects := by
  refine ⟨?_, ?_, ?_, ?_, ?_⟩
  · simp [sendRequest, hs, hq, hr]
  · simp [sendRequest, hs, hq, hr]
  · have h1 := onReply_poolPuts env.supports p r
    rw [poolPuts] at h1
    simp [sendRequest, hs, hq, hr, poolPuts, List.countP_cons, isPoolPut, h1]
  · have h2 := onReply_bookkeep env.supports p r
    simp [sendRequest, hs, hq, hr]
    exact h2
  · have h3 := onReply_recordLatency env.supports p r
    simp [sendRequest, hs, hq, hr]
    exact h3

/-- Concrete environment exercising the successful sendRequest path. -/
def envReplyFirst : SendEnv :=
  ⟨Except.ok (), none, RaceOutcome.replyFirst ⟨2, 5⟩, "session dead",
    "context canceled", fun _ => (["/ipfs/kad/1.0.0"], none)⟩

/-- Witness: the successful-path theorem applied at a concrete environment. -/
theorem sendRequest_success_pool_and_bookkeeping_witness :
    (sendRequest envReplyFirst 7 ⟨1, 3⟩).reply = some ⟨2, 5⟩ ∧
    (sendRequest envReplyFirst 7 ⟨1, 3⟩).error = none ∧
    poolPuts ((sendRequest envReplyFirst 7 ⟨1, 3⟩).effects ++
      (sendRequest envReplyFirst 7 ⟨1, 3⟩).deferred) = 1 ∧
    Effect.bookkeep 7 ⟨2, 5⟩ ∈ (sendRequest envReplyFirst 7 ⟨1, 3⟩).effects ∧
    Effect.recordLatency 7 ∈ (sendRequest envReplyFirst 7 ⟨1, 3⟩).effects :=
  sendRequest_success_pool_and_bookkeeping envReplyFirst 7 ⟨1, 3⟩ ⟨2, 5⟩ rfl rfl rfl

/-- C2: for every sendRequest call whose context is cancelled before a reply
arrives, sendRequest immediately returns the cancellation error without
resetting the session, and the detached continuation keeps waiting on the
PendingReply channel: a late reply is still consumed and triggers exactly the
pool-return and bookkeeping side effects of a timely reply. -/
theorem sendRequest_cancelled_detached (env : SendEnv) (p : PeerId)
    (req : Message) (late : Option Message) (hs : env.getStream = Except.ok ())
    (hq : env.requestErr = none) (hr : env.race = RaceOutcome.ctxDone late) :
    (sendRequest env p req).reply = none ∧
    (sendRequest env p req).error = some env.ctxErr ∧
    Effect.sessionReset ∉ (sendRequest env p req).effects ∧
    (sendRequest env p req).deferred =
      (match late with
       | some r => onReply env.supports p r
       | none => []) ∧
    (∀ r, late = some r →
      Effect.recordOutbound req :: (sendRequest env p req).deferred =
        (sendRequest { env with race := RaceOutcome.replyFirst r } p req).effects) := by
  refine ⟨?_, ?_, ?_, ?_, ?_⟩
  · simp [sendRequest, hs, hq, hr]
  · simp [sendRequest, hs, hq, hr]
  · simp [sendRequest, hs, hq, hr]
  · cases late with
    | none => simp [sendRequest, hs, hq, hr]
    | some r => simp [sendRequest, hs, hq, hr]
  · intro r hlate
    simp [sendRequest, hs, hq, hr, hlate]

/-- Concrete environment exercising the cancelled sendRequest path, with a
late reply arriving on the channel after cancellation. -/
def envCtxDone : SendEnv :=
  ⟨Except.ok (), none, RaceOutcome.ctxDone (some ⟨4, 9⟩), "session dead",
    "context canceled", fun _ => (["/ipfs/kad/1.0.0"], none)⟩

/-- Witness: the cancellation theorem applied at a concrete environment. -/
theorem sendRequest_cancelled_detached_witness :
    (sendRequest envCtxDone 3 ⟨0, 2⟩).reply = none ∧
    (sendRequest envCtxDone 3 ⟨0, 2⟩).error = some "context canceled" ∧
    Effect.sessionReset ∉ (sendRequest envCtxDone 3 ⟨0, 2⟩).effects ∧
    Effect.recordOutbound ⟨0, 2⟩ :: (sendRequest envCtxDone 3 ⟨0, 2⟩).deferred =
      (sendRequest { envCtxDone with
        race := RaceOutcome.replyFirst ⟨4, 9⟩ } 3 ⟨0, 2⟩).effects := by
  have h := sendRequest_cancelled_detached envCtxDone 3 ⟨0, 2⟩ (some ⟨4, 9⟩)
    rfl rfl rfl
  exact ⟨h.1, h.2.1, h.2.2.1, h.2.2.2.2 ⟨4, 9⟩ rfl⟩

/-- C3: for every sendRequest call in which the session fails after the
request step begins, the session ends up reset and is never returned to the
pool, and sendRequest returns a non-nil error: the request error when
ps.request failed (sendRequest resets the session itself), or the session's
terminal error from err() when the PendingReply channel closed without a
value (the session's own read continuation already reset it). -/
theorem sendRequest_failure_discards_session (env : SendEnv) (p : PeerId)
    (req : Message) (hs : env.getStream = Except.ok ()) :
    (env.requestErr ≠ none →
      (sendRequest env p req).error = env.requestErr ∧
      Effect.sessionReset ∈ (sendRequest env p req).effects ∧
      poolPuts ((sendRequest env p req).effects ++
        (sendRequest env p req).deferred) = 0) ∧
    (env.requestErr = none → env.race = RaceOutcome.chanClosed →
      (sendRequest env p req).error = some env.sessionErr ∧
      Effect.sessionReset ∈ sessionInternalEffects env ∧
      poolPuts ((sendRequest env p req).effects ++
        (sendRequest env p req).deferred) = 0) := by
  constructor
  · intro hq
    cases hqe : env.requestErr with
    | none => exact absurd hqe hq
    | some e =>
      refine ⟨?_, ?_, ?_⟩ <;>
        simp [sendRequest, hs, hqe, poolPuts, List.countP_cons, isPoolPut]
  · intro hq hr
    refine ⟨?_, ?_, ?_⟩ <;>
      simp [sendRequest, sessionInternalEffects, hs, hq, hr, poolPuts,
        List.countP_cons, isPoolPut]

/-- Concrete environment in which ps.request itself fails. -/
def envRequestErr : SendEnv :=
  ⟨Except.ok (), some "write failed", RaceOutcome.chanClosed, "session dead",
    "context canceled", fun _ => ([], none)⟩

/-- Concrete environment in which the PendingReply channel closes without a
value. -/
def envChanClosed : SendEnv :=
  ⟨Except.ok (), none, RaceOutcome.chanClosed, "session dead",
    "context canceled", fun _ => ([], none)⟩

/-- Witness: the failure theorem applied at concrete environments covering
both failure shapes. -/
theorem sendRequest_failure_discards_session_witness :
    ((sendRequest envRequestErr 1 ⟨0, 1⟩).error = some "write failed" ∧
      Effect.sessionReset ∈ (sendRequest envRequestErr 1 ⟨0, 1⟩).effects ∧
      poolPuts ((sendRequest envRequestErr 1 ⟨0, 1⟩).effects ++
        (sendRequest envRequestErr 1 ⟨0, 1⟩).deferred) = 0) ∧
    ((sendRequest envChanClosed 1 ⟨0, 1⟩).error = some "session dead" ∧
      Effect.sessionReset ∈ sessionInternalEffects envChanClosed ∧
      poolPuts ((sendRequest envChanClosed 1 ⟨0, 1⟩).effects ++
        (sendRequest envChanClosed 1 ⟨0, 1⟩).deferred) = 0) :=
  ⟨(sendRequest_failure_discards_session envRequestErr 1 ⟨0, 1⟩ rfl).1
      (by simp [envRequestErr]),
    (sendRequest_failure_discards_session envChanClosed 1 ⟨0, 1⟩ rfl).2 rfl rfl⟩

/-- C8: for every sendMessage call that obtains a session, if send succeeds
the session is returned to the pool and sendMessage returns nil; if send
fails the session is reset, never returned to the pool, and sendMessage
returns that error. No reply is awaited in either case: the result is fully
determined by the send outcome alone. -/
theorem sendMessage_pool_or_reset (env : SendMsgEnv) (p : PeerId)
    (pmes : Message) (hs : env.getStream = Except.ok ()) :
    (env.sendErr = none →
      sendMessage env p pmes =
        (none, [Effect.recordOutbound pmes, Effect.poolPut p])) ∧
    (∀ e, env.sendErr = some e →
      sendMessage env p pmes =
        (some e, [Effect.recordOutbound pmes, Effect.sessionReset])) := by
  constructor
  · intro h
    simp [sendMessage, hs, h]
  · intro e h
    simp [sendMessage, hs, h]

/-- Witness: sendMessage at concrete environments for both send outcomes. -/
theorem sendMessage_pool_or_reset_witness :
    sendMessage ⟨Except.ok (), none⟩ 5 ⟨2, 8⟩ =
      (none, [Effect.recordOutbound ⟨2, 8⟩, Effect.poolPut 5]) ∧
    sendMessage ⟨Except.ok (), some "broken pipe"⟩ 5 ⟨2, 8⟩ =
      (some "broken pipe", [Effect.recordOutbound ⟨2, 8⟩, Effect.sessionReset]) :=
  ⟨(sendMessage_pool_or_reset ⟨Except.ok (), none⟩ 5 ⟨2, 8⟩ rfl).1 rfl,
    (sendMessage_pool_or_reset ⟨Except.ok (), some "broken pipe"⟩ 5 ⟨2, 8⟩ rfl).2
      "broken pipe" rfl⟩

/-! ## Peer bookkeeping: updateFromMessage -/

/-- C9: updateFromMessage triggers the routing-table freshness update
(dht.Update) if and only if the peer store's SupportsProtocols query returns
no error and a non-empty list of matched protocols. -/
theorem updateFromMessage_gates_update (sp : PeerId → List ProtoId × Option Err)
    (p : PeerId) (m : Message) :
    Effect.rtUpdate p ∈ (updateFromMessage sp p m).2 ↔
      ((sp p).2 = none ∧ (sp p).1 ≠ []) := by
  unfold updateFromMessage
  by_cases h : (sp p).2 = none ∧ (sp p).1 ≠ [] <;> simp [h]

/-- Witness: the gate evaluated at a concrete peer store answering with a
non-empty protocol list and no error. -/
theorem updateFromMessage_gates_update_witness :
    Effect.rtUpdate 2 ∈
      (updateFromMessage (fun _ => (["/ipfs/kad/1.0.0"], none)) 2 ⟨3, 4⟩).2 :=
  (updateFromMessage_gates_update (fun _ => (["/ipfs/kad/1.0.0"], none)) 2
    ⟨3, 4⟩).mpr (by simp)

/-- handleNewMessage's Boolean outcome never depends on the peer store's
SupportsProtocols answers: they only shape the bookkeeping effects. -/
theorem handleNewMessage_fst_supports (env : DispatchEnv)
    (sp : PeerId → List ProtoId × Option Err) (p : PeerId) :
    ∀ trace, (handleNewMessage { env with supports := sp } p trace).1 =
      (handleNewMessage env p trace).1 := by
  intro trace
  induction trace with
  | nil => rfl
  | cons hd rest ih =>
    cases hd with
    | eof => rfl
    | readErr e => rfl
    | msg m =>
      simp only [handleNewMessage]
      cases env.handlerFor m.typeTag with
      | none => rfl
      | some h =>
        dsimp only
        rcases hh : h p m with ⟨resp, errv⟩
        cases errv with
        | some e => cases resp <;> rfl
        | none =>
          cases resp with
          | none => simpa using ih
          | some r =>
            dsimp only
            cases hw : env.writeErr r with
            | some e => rfl
            | none => simpa using ih

/-- C10 (implicit): updateFromMessage returns nil for every input; a failing
SupportsProtocols query is swallowed (the routing-table update is silently
skipped), and the result is never propagated: sendRequest's returned reply
and error, and handleNewMessage's Boolean outcome, are unchanged under any
change of the peer store's SupportsProtocols behaviour. -/
theorem updateFromMessage_error_swallowed :
    (∀ sp p m, (updateFromMessage sp p m).1 = none) ∧
    (∀ sp p m, (sp p).2 ≠ none →
      Effect.rtUpdate p ∉ (updateFromMessage sp p m).2) ∧
    (∀ env sp p req,
      (sendRequest { env with supports := sp } p req).reply =
        (sendRequest env p req).reply ∧
      (sendRequest { env with supports := sp } p req).error =
        (sendRequest env p req).error) ∧
    (∀ env sp p trace,
      (handleNewMessage { env with supports := sp } p trace).1 =
        (handleNewMessage env p trace).1) := by
  refine ⟨fun sp p m => rfl, ?_, ?_, ?_⟩
  · intro sp p m hne
    unfold updateFromMessage
    simp [hne]
  · intro env sp p req
    rcases env with ⟨gs, qe, rc, se, ce, su⟩
    cases gs with
    | error e => exact ⟨rfl, rfl⟩
    | ok u =>
      cases qe with
      | some e => exact ⟨rfl, rfl⟩
      | none =>
        cases rc with
        | replyFirst r => exact ⟨rfl, rfl⟩
        | chanClosed => exact ⟨rfl, rfl⟩
        | ctxDone late => exact ⟨rfl, rfl⟩
  · exact fun env sp p trace => handleNewMessage_fst_supports env sp p trace

/-- Witness: the swallowed-error theorem applied at a peer store whose
SupportsProtocols query fails. -/
theorem updateFromMessage_error_swallowed_witness :
    (updateFromMessage (fun _ => ([], some "peerstore down")) 6 ⟨1, 1⟩).1 =
      none ∧
    Effect.rtUpdate 6 ∉
      (updateFromMessage (fun _ => ([], some "peerstore down")) 6 ⟨1, 1⟩).2 :=
  ⟨updateFromMessage_error_swallowed.1 (fun _ => ([], some "peerstore down"))
      6 ⟨1, 1⟩,
    updateFromMessage_error_swallowed.2.1
      (fun _ => ([], some "peerstore down")) 6 ⟨1, 1⟩ (by simp)⟩

/-! ## Server path: the inbound dispatcher -/

/-- Orderly completion requires reaching end-of-input: a trace on which the
dispatcher loop returns true contains an EOF read. -/
theorem handleNewMessage_true_mem_eof (env : DispatchEnv) (p : PeerId) :
    ∀ trace, (handleNewMessage env p trace).1 = true → ReadResult.eof ∈ trace := by
  intro trace
  induction trace with
  | nil => intro h; simp [handleNewMessage] at h
  | cons hd rest ih =>
    cases hd with
    | eof => intro _; exact List.mem_cons_self _ _
    | readErr e => intro h; simp [handleNewMessage] at h
    | msg m =>
      intro h
      apply List.mem_cons_of_mem
      apply ih
      simp only [handleNewMessage] at h
      cases hf : env.handlerFor m.typeTag with
      | none => rw [hf] at h; simp at h
      | some hdl =>
        rw [hf] at h
        dsimp only at h
        rcases hh : hdl p m with ⟨resp, errv⟩
        rw [hh] at h
        cases errv with
        | some e => cases resp <;> simp at h
        | none =>
          cases resp with
          | none => simpa using h
          | some r =>
            dsimp only at h
            cases hw : env.writeErr r with
            | some e => rw [hw] at h; simp at h
            | none => rw [hw] at h; simpa using h

/-- C5: the dispatcher loop terminates cleanly exactly on end-of-input: an
EOF read returns (true, []) at once; any other read error returns (false, [])
with no response written for the failed read; a clean outcome is reachable
only through an EOF read; handleNewStream half-closes the stream for writes
(Close, before the deferred Reset) exactly on the clean outcome and only
hard-resets on the abnormal one. -/
theorem handleNewMessage_termination (env : DispatchEnv) (p : PeerId) :
    (∀ rest, handleNewMessage env p (ReadResult.eof :: rest) = (true, [])) ∧
    (∀ e rest,
      handleNewMessage env p (ReadResult.readErr e :: rest) = (false, [])) ∧
    (∀ trace, (handleNewMessage env p trace).1 = true →
      ReadResult.eof ∈ trace) ∧
    (∀ trace, (handleNewMessage env p trace).1 = true →
      (handleNewStream env p trace).1 = [StreamOp.close, StreamOp.reset]) ∧
    (∀ trace, (handleNewMessage env p trace).1 = false →
      (handleNewStream env p trace).1 = [StreamOp.reset]) := by
  refine ⟨fun rest => rfl, fun e rest => rfl,
    handleNewMessage_true_mem_eof env p, ?_, ?_⟩
  · intro trace h
    simp [handleNewStream, h]
  · intro trace h
    simp [handleNewStream, h]

/-- Concrete dispatcher environment: type 0 is handled with no response,
type 1 is handled with response ⟨9, 9⟩, other types have no handler; the
peer store matches one protocol; writes succeed. -/
def envDispatch : DispatchEnv :=
  ⟨fun t =>
      if t = 0 then some (fun _ _ => (none, none))
      else if t = 1 then some (fun _ _ => (some ⟨9, 9⟩, none))
      else none,
    fun _ => (["/ipfs/kad/1.0.0"], none),
    fun _ => none⟩

/-- Witness: the termination theorem applied at concrete traces. -/
theorem handleNewMessage_termination_witness :
    handleNewMessage envDispatch 0 [ReadResult.eof] = (true, []) ∧
    handleNewMessage envDispatch 0 [ReadResult.readErr "conn reset"] =
      (false, []) ∧
    ReadResult.eof ∈ [ReadResult.eof] ∧
    (handleNewStream envDispatch 0 [ReadResult.eof]).1 =
      [StreamOp.close, StreamOp.reset] ∧
    (handleNewStream envDispatch 0 [ReadResult.readErr "conn reset"]).1 =
      [StreamOp.reset] := by
  have h := handleNewMessage_termination envDispatch 0
  exact ⟨h.1 [], h.2.1 "conn reset" [], h.2.2.1 [ReadResult.eof] rfl,
    h.2.2.2.1 [ReadResult.eof] rfl,
    h.2.2.2.2 [ReadResult.readErr "conn reset"] rfl⟩

/-- C4: on a stream delivering request `a` (handled, no response body), then
request `b` (handled, with response), then end-of-input, the dispatcher loop
writes and flushes exactly one response frame (b's), updates peer bookkeeping
for both requests, and terminates cleanly (returns true). -/
theorem handleNewMessage_two_requests (env : DispatchEnv) (p : PeerId)
    (a b respB : Message)
    (ha hb : PeerId → Message → Option Message × Option Err)
    (hA : env.handlerFor a.typeTag = some ha) (hA2 : ha p a = (none, none))
    (hB : env.handlerFor b.typeTag = some hb)
    (hB2 : hb p b = (some respB, none)) (hW : env.writeErr respB = none) :
    (handleNewMessage env p
      [ReadResult.msg a, ReadResult.msg b, ReadResult.eof]).1 = true ∧
    writesOf (handleNewMessage env p
      [ReadResult.msg a, ReadResult.msg b, ReadResult.eof]).2 = [respB] ∧
    flushes (handleNewMessage env p
      [ReadResult.msg a, ReadResult.msg b, ReadResult.eof]).2 = 1 ∧
    Effect.bookkeep p a ∈ (handleNewMessage env p
      [ReadResult.msg a, ReadResult.msg b, ReadResult.eof]).2 ∧
    Effect.bookkeep p b ∈ (handleNewMessage env p
      [ReadResult.msg a, ReadResult.msg b, ReadResult.eof]).2 := by
  have hres : handleNewMessage env p
      [ReadResult.msg a, ReadResult.msg b, ReadResult.eof] =
      (true, Effect.handled a :: (updateFromMessage env.supports p a).2 ++
        (Effect.handled b :: (updateFromMessage env.supports p b).2 ++
          [Effect.wroteResp respB, Effect.flushed])) := by
    simp [handleNewMessage, hA, hA2, hB, hB2, hW]
  rw [hres]
  refine ⟨rfl, ?_, ?_, ?_, ?_⟩
  · have ua := updateFromMessage_writesOf env.supports p a
    have ub := updateFromMessage_writesOf env.supports p b
    rw [writesOf] at ua ub
    simp [writesOf, respOf, List.filterMap_append, List.filterMap_cons, ua, ub]
  · have ua := updateFromMessage_flushes env.supports p a
    have ub := updateFromMessage_flushes env.supports p b
    rw [flushes] at ua ub
    simp [flushes, isFlush, List.countP_append, List.countP_cons, ua, ub]
  · have h2 := updateFromMessage_bookkeep env.supports p a
    simp only [List.cons_append, List.mem_cons, List.mem_append]
    exact Or.inr (Or.inl h2)
  · have h2 := updateFromMessage_bookkeep env.supports p b
    simp only [List.cons_append, List.mem_cons, List.mem_append]
    refine Or.inr (Or.inr (Or.inr (Or.inl h2)))

/-- Witness: the two-request scenario at the concrete dispatcher
environment, with request types 0 (no response) and 1 (response ⟨9, 9⟩). -/
theorem handleNewMessage_two_requests_witness :
    (handleNewMessage envDispatch 4
      [ReadResult.msg ⟨0, 1⟩, ReadResult.msg ⟨1, 2⟩, ReadResult.eof]).1 = true ∧
    writesOf (handleNewMessage envDispatch 4
      [ReadResult.msg ⟨0, 1⟩, ReadResult.msg ⟨1, 2⟩, ReadResult.eof]).2 =
      [⟨9, 9⟩] ∧
    flushes (handleNewMessage envDispatch 4
      [ReadResult.msg ⟨0, 1⟩, ReadResult.msg ⟨1, 2⟩, ReadResult.eof]).2 = 1 ∧
    Effect.bookkeep 4 ⟨0, 1⟩ ∈ (handleNewMessage envDispatch 4
      [ReadResult.msg ⟨0, 1⟩, ReadResult.msg ⟨1, 2⟩, ReadResult.eof]).2 ∧
    Effect.bookkeep 4 ⟨1, 2⟩ ∈ (handleNewMessage envDispatch 4
      [ReadResult.msg ⟨0, 1⟩, ReadResult.msg ⟨1, 2⟩, ReadResult.eof]).2 :=
  handleNewMessage_two_requests envDispatch 4 ⟨0, 1⟩ ⟨1, 2⟩ ⟨9, 9⟩
    (fun _ _ => (none, none)) (fun _ _ => (some ⟨9, 9⟩, none))
    rfl rfl rfl rfl rfl

/-- C6: a received request whose type tag has no registered handler makes the
dispatcher return false immediately after reading it, with no response
written, no handler invoked and no peer bookkeeping for it; a previously
handled request's response has already been written and flushed and remains
in the effect trace. -/
theorem handleNewMessage_unknown_type (env : DispatchEnv) (p : PeerId)
    (m : Message) (rest : List ReadResult)
    (hm : env.handlerFor m.typeTag = none) :
    handleNewMessage env p (ReadResult.msg m :: rest) = (false, []) ∧
    (∀ a respA ha, env.handlerFor a.typeTag = some ha →
      ha p a = (some respA, none) → env.writeErr respA = none →
      handleNewMessage env p (ReadResult.msg a :: ReadResult.msg m :: rest) =
        (false, Effect.handled a :: (updateFromMessage env.supports p a).2 ++
          [Effect.wroteResp respA, Effect.flushed])) := by
  have h1 : handleNewMessage env p (ReadResult.msg m :: rest) = (false, []) := by
    simp [handleNewMessage, hm]
  refine ⟨h1, ?_⟩
  intro a respA ha hA hA2 hW
  simp [handleNewMessage, hA, hA2, hW, hm]

/-- Witness: the unknown-type scenario at the concrete dispatcher
environment, with unhandled type 5 preceded by handled type 1. -/
theorem handleNewMessage_unknown_type_witness :
    handleNewMessage envDispatch 4 [ReadResult.msg ⟨5, 1⟩] = (false, []) ∧
    handleNewMessage envDispatch 4
      [ReadResult.msg ⟨1, 2⟩, ReadResult.msg ⟨5, 1⟩] =
      (false, Effect.handled ⟨1, 2⟩ ::
        (updateFromMessage envDispatch.supports 4 ⟨1, 2⟩).2 ++
        [Effect.wroteResp ⟨9, 9⟩, Effect.flushed]) := by
  have h := handleNewMessage_unknown_type envDispatch 4 ⟨5, 1⟩ [] rfl
  exact ⟨h.1, h.2 ⟨1, 2⟩ ⟨9, 9⟩ (fun _ _ => (some ⟨9, 9⟩, none)) rfl rfl rfl⟩

/-- C7: when no next request arrives on an idle inbound stream within the
fixed read-timeout budget, the pending read fails with ErrReadTimeout; this
is not end-of-input, so the loop terminates abnormally (returns false, no
response written) and handleNewStream hard-resets the stream without the
graceful Close. -/
theorem handleNewMessage_idle_timeout (env : DispatchEnv) (p : PeerId)
    (waited : Nat) (next : ReadResult) (rest : List ReadResult)
    (h : dhtReadMessageTimeout < waited) :
    idleRead waited next = ReadResult.readErr ErrReadTimeout ∧
    handleNewMessage env p (idleRead waited next :: rest) = (false, []) ∧
    (handleNewStream env p (idleRead waited next :: rest)).1 =
      [StreamOp.reset] := by
  have hi : idleRead waited next = ReadResult.readErr ErrReadTimeout := by
    simp [idleRead, h]
  refine ⟨hi, ?_, ?_⟩ <;> simp [hi, handleNewMessage, handleNewStream]

/-- Witness: the idle timeout theorem one nanosecond past the budget. -/
theorem handleNewMessage_idle_timeout_witness :
    idleRead (dhtReadMessageTimeout + 1) (ReadResult.msg ⟨0, 1⟩) =
      ReadResult.readErr ErrReadTimeout ∧
    handleNewMessage envDispatch 4
      [idleRead (dhtReadMessageTimeout + 1) (ReadResult.msg ⟨0, 1⟩)] =
      (false, []) ∧
    (handleNewStream envDispatch 4
      [idleRead (dhtReadMessageTimeout + 1) (ReadResult.msg ⟨0, 1⟩)]).1 =
      [StreamOp.reset] :=
  handleNewMessage_idle_timeout envDispatch 4 (dhtReadMessageTimeout + 1)
    (ReadResult.msg ⟨0, 1⟩) [] (Nat.lt_succ_self _)
